import Mathlib

/-!
Shallow embedding of the coordinate/navigation engine of the venue-map
application (sources: `src/stall-processor.ts`, the navigation module
bundled in `src/vite.config.ts`, and the row-template table
`locateStalls`).  Coordinates are modelled as rationals (`ℚ`); the
JavaScript `parseInt` results are modelled as `Option Int` (with `none`
standing for `NaN`); the string-formatted rect (fields suffixed with
`%`) carries the same numbers as the numeric rect and is therefore
modelled by the same record of rationals.
-/

namespace NiceMap

/-- Rect template for unit #1 of a line (`coords` in `LocateStall`). -/
structure RectT where
  top : ℚ
  left : ℚ
  width : ℚ
  height : ℚ
deriving DecidableEq

/-- Bounding box of a whole line (`border` in `LocateStall`). -/
structure BorderT where
  top : ℚ
  left : ℚ
  bottom : ℚ
  right : ℚ
deriving DecidableEq

/-- One entry of the row-template table (`LocateStall` in `types.ts`). -/
structure LocateStall where
  id : String
  num : Int
  coords : RectT
  border : BorderT
  isGrouped : Bool := false
deriving DecidableEq

/-- Numeric rect of a resolved stall.  The source also builds a
string-formatted copy from exactly the same numbers (each field
rendered with a `%` suffix); this embedding keeps the numbers. -/
structure NumCoords where
  top : ℚ
  left : ℚ
  width : ℚ
  height : ℚ
deriving DecidableEq

/-- A promotional link (`PromoLink` in `types.ts`). -/
structure PromoLink where
  text : String
  href : String
deriving DecidableEq

/-- One promotion entry (`PromoStall` in `types.ts`, with the
`promoTags` field of the tagged processor variant). -/
structure PromoStall where
  stallId : String
  promoUser : String
  promoAvatar : String
  promoHTML : String
  promoLinks : List PromoLink
  promoTags : List String
deriving DecidableEq

/-- A resolved stall (`StallData` in `types.ts`).  `coords` and
`numericCoords` are both computed from the same numbers in
`stall-processor.ts`; both are kept as numeric records here. -/
structure StallData where
  id : String
  num : Int
  stallCnt : Int
  coords : NumCoords
  numericCoords : NumCoords
  stallTitle : String
  stallImg : Option String
  stallLink : Option String
  promoData : List PromoStall
  promoTags : List String
deriving DecidableEq

/-- A raw spreadsheet row (a flat string-keyed record in the source).
String fields model absent keys as `""` (the source only ever tests
them for JavaScript truthiness).  `num` and `stallCnt` model the
results of `parseInt(rawStall.num, 10)` / `parseInt(rawStall.stallCnt, 10)`,
with `none` standing for `NaN`.  `promoLinks` and `promoTags` model the
raw delimited strings (`none` = key absent). -/
structure RawStall where
  id : String := ""
  stallId : String := ""
  num : Option Int := none
  stallCnt : Option Int := none
  stallTitle : String := ""
  stallImg : String := ""
  stallLink : String := ""
  promoUser : String := ""
  promoAvatar : String := ""
  promoHTML : String := ""
  promoLinks : Option String := none
  promoTags : Option String := none
deriving DecidableEq

/-- The row-template table `locateStalls` from `official-data.ts`. -/
def locateStalls : List LocateStall := [
  { id := "A", num := 1,
    coords := { top := 87.8, left := 91, width := 1.05, height := 1.4 },
    border := { top := 86.15, left := 52.5, bottom := 89.2, right := 92.05 } },
  { id := "B", num := 1,
    coords := { top := 83.1, left := 91, width := 1.05, height := 1.4 },
    border := { top := 81.45, left := 52.5, bottom := 84.5, right := 92.05 } },
  { id := "C", num := 1,
    coords := { top := 78.4, left := 91, width := 1.05, height := 1.4 },
    border := { top := 76.75, left := 52.5, bottom := 79.8, right := 92.05 } },
  { id := "D", num := 1,
    coords := { top := 73.5, left := 91, width := 1.05, height := 1.4 },
    border := { top := 71.85, left := 52.5, bottom := 74.9, right := 92.05 } },
  { id := "E", num := 1,
    coords := { top := 68.5, left := 91, width := 1.05, height := 1.4 },
    border := { top := 66.85, left := 52.5, bottom := 69.9, right := 92.05 } },
  { id := "F", num := 1,
    coords := { top := 63.9, left := 91, width := 1.05, height := 1.4 },
    border := { top := 62.25, left := 52.5, bottom := 65.3, right := 92.05 } },
  { id := "G", num := 1,
    coords := { top := 59.1, left := 91, width := 1.05, height := 1.4 },
    border := { top := 57.45, left := 52.5, bottom := 60.5, right := 92.05 } },
  { id := "H", num := 1,
    coords := { top := 54.3, left := 91, width := 1.05, height := 1.4 },
    border := { top := 52.65, left := 52.5, bottom := 55.7, right := 92.05 } },
  { id := "I", num := 1,
    coords := { top := 49.5, left := 91, width := 1.05, height := 1.4 },
    border := { top := 47.85, left := 52.5, bottom := 50.9, right := 92.05 } },
  { id := "J", num := 1,
    coords := { top := 44.5, left := 91, width := 1.05, height := 1.4 },
    border := { top := 42.85, left := 52.5, bottom := 45.9, right := 92.05 } },
  { id := "K", num := 1,
    coords := { top := 39.6, left := 91, width := 1.05, height := 1.4 },
    border := { top := 37.95, left := 52.5, bottom := 41.0, right := 92.05 } },
  { id := "L", num := 1,
    coords := { top := 34.8, left := 91, width := 1.05, height := 1.4 },
    border := { top := 33.15, left := 52.5, bottom := 36.2, right := 92.05 } },
  { id := "M", num := 1,
    coords := { top := 30.1, left := 91, width := 1.05, height := 1.4 },
    border := { top := 28.45, left := 52.5, bottom := 31.5, right := 92.05 } },
  { id := "N", num := 1,
    coords := { top := 25.2, left := 91, width := 1.05, height := 1.4 },
    border := { top := 23.55, left := 52.5, bottom := 26.6, right := 92.05 } },
  { id := "O", num := 1,
    coords := { top := 20.4, left := 91, width := 1.05, height := 1.4 },
    border := { top := 18.75, left := 52.5, bottom := 21.8, right := 92.05 } },
  { id := "P", num := 1,
    coords := { top := 15.6, left := 91, width := 1.05, height := 1.4 },
    border := { top := 13.95, left := 52.5, bottom := 17.0, right := 92.05 } },
  { id := "Q", num := 1,
    coords := { top := 10.8, left := 91, width := 1.05, height := 1.4 },
    border := { top := 9.15, left := 52.5, bottom := 12.2, right := 92.05 } },
  { id := "R", num := 1,
    coords := { top := 87.8, left := 46.3, width := 1.05, height := 1.4 },
    border := { top := 86.15, left := 7.8, bottom := 89.2, right := 47.35 } },
  { id := "S", num := 1,
    coords := { top := 83.1, left := 46.3, width := 1.05, height := 1.4 },
    border := { top := 81.45, left := 7.8, bottom := 84.5, right := 47.35 } },
  { id := "T", num := 1,
    coords := { top := 78.4, left := 46.3, width := 1.05, height := 1.4 },
    border := { top := 76.75, left := 7.8, bottom := 79.8, right := 47.35 } },
  { id := "U", num := 1,
    coords := { top := 73.5, left := 46.3, width := 1.05, height := 1.4 },
    border := { top := 71.85, left := 7.8, bottom := 74.9, right := 47.35 } },
  { id := "V", num := 1,
    coords := { top := 68.7, left := 46.3, width := 1.05, height := 1.4 },
    border := { top := 67.05, left := 7.8, bottom := 70.1, right := 47.35 } },
  { id := "W", num := 1,
    coords := { top := 63.9, left := 46.3, width := 1.05, height := 1.4 },
    border := { top := 62.25, left := 7.8, bottom := 65.3, right := 47.35 } },
  { id := "X", num := 1,
    coords := { top := 59.1, left := 46.3, width := 1.05, height := 1.4 },
    border := { top := 57.45, left := 7.8, bottom := 60.5, right := 47.35 } },
  { id := "Y", num := 1,
    coords := { top := 54.3, left := 46.3, width := 1.05, height := 1.4 },
    border := { top := 52.65, left := 7.8, bottom := 55.7, right := 47.35 } },
  { id := "Z", num := 1,
    coords := { top := 49.5, left := 46.3, width := 1.05, height := 1.4 },
    border := { top := 47.85, left := 7.8, bottom := 50.9, right := 47.35 } },
  { id := "鼠", num := 1,
    coords := { top := 44.5, left := 46.3, width := 1.05, height := 1.4 },
    border := { top := 42.85, left := 7.8, bottom := 45.9, right := 47.35 } },
  { id := "牛", num := 1,
    coords := { top := 39.6, left := 46.3, width := 1.05, height := 1.4 },
    border := { top := 37.95, left := 7.8, bottom := 41.0, right := 47.35 } },
  { id := "虎", num := 1,
    coords := { top := 34.9, left := 46.3, width := 1.05, height := 1.4 },
    border := { top := 33.25, left := 7.8, bottom := 36.3, right := 47.35 } },
  { id := "兔", num := 1,
    coords := { top := 30.1, left := 46.3, width := 1.05, height := 1.4 },
    border := { top := 28.45, left := 7.8, bottom := 31.5, right := 47.35 } },
  { id := "龍", num := 1,
    coords := { top := 25.2, left := 46.3, width := 1.05, height := 1.4 },
    border := { top := 23.55, left := 7.8, bottom := 26.6, right := 47.35 } },
  { id := "蛇", num := 1,
    coords := { top := 20.4, left := 46.3, width := 1.05, height := 1.4 },
    border := { top := 18.75, left := 7.8, bottom := 21.8, right := 47.35 } },
  { id := "馬", num := 1,
    coords := { top := 15.6, left := 46.3, width := 1.05, height := 1.4 },
    border := { top := 13.95, left := 7.8, bottom := 17.0, right := 47.35 } },
  { id := "羊", num := 1,
    coords := { top := 10.8, left := 46.3, width := 1.05, height := 1.4 },
    border := { top := 9.15, left := 7.8, bottom := 12.2, right := 47.35 } },
  { id := "猴", num := 1,
    coords := { top := 73.5, left := 4.5, width := 1.1, height := 1.44 },
    border := { top := 52.7, left := 4.5, bottom := 74.9, right := 5.55 },
    isGrouped := true },
  { id := "雞", num := 1,
    coords := { top := 43.7, left := 4.5, width := 1.1, height := 1.44 },
    border := { top := 23, left := 4.5, bottom := 45.6, right := 5.55 },
    isGrouped := true },
  { id := "狗", num := 1,
    coords := { top := 18.2, left := 4.5, width := 1.1, height := 1.44 },
    border := { top := 7.5, left := 4.5, bottom := 19.8, right := 5.55 },
    isGrouped := true },
  { id := "特", num := 1,
    coords := { top := 84.4, left := 4.15, width := 1.8, height := 2.41 },
    border := { top := 77.15, left := 4.15, bottom := 87.2, right := 5.75 },
    isGrouped := true },
  { id := "商", num := 1,
    coords := { top := 89.5, left := 4.15, width := 1.8, height := 2.41 },
    border := { top := 87.5, left := 4.15, bottom := 91.5, right := 5.75 },
    isGrouped := true },
  { id := "範", num := 1,
    coords := { top := 0.5, left := 91, width := 5, height := 5 },
    border := { top := 0.5, left := 86, bottom := 5.5, right := 96 } }
]

/-- Lookup in the template map (`locateStallMap.get(line)`; ids are
unique in the table, so first match equals map lookup). -/
def locateStallFind (line : String) : Option LocateStall :=
  locateStalls.find? (fun t => t.id = line)

/-- Rounding of the leading edge: `parseFloat(x.toFixed(2))`, modelled
as round-half-up to two decimal places over `ℚ`. -/
def roundTo2 (x : ℚ) : ℚ := (Int.floor (x * 100 + 1 / 2) : ℚ) / 100

/-- Prefix test on character lists (used to embed the JavaScript
string primitives `startsWith` and `includes`). -/
def isPrefixList : List Char → List Char → Bool
  | [], _ => true
  | _ :: _, [] => false
  | a :: as, b :: bs => a = b && isPrefixList as bs

/-- Contiguous-subsequence test on character lists. -/
def hasSubSeq (pat : List Char) : List Char → Bool
  | [] => isPrefixList pat []
  | c :: t => isPrefixList pat (c :: t) || hasSubSeq pat t

/-- JavaScript `s.startsWith(p)`. -/
def strStartsWith (s p : String) : Bool := isPrefixList p.data s.data

/-- JavaScript `s.toLowerCase()` (ASCII case folding; the identifiers
and search terms of this system contain no non-ASCII cased letters). -/
def jsToLower (s : String) : String := ⟨s.data.map Char.toLower⟩

/-- JavaScript `s.trim()` (leading and trailing whitespace removed). -/
def jsTrim (s : String) : String :=
  ⟨((s.data.dropWhile Char.isWhitespace).reverse.dropWhile
      Char.isWhitespace).reverse⟩

/-- Line identifier of a stall id: `id.substring(0, 1)` (all line ids
in this system are single BMP code points, so taking one character
coincides with the JavaScript code-unit substring). -/
def lineOf (id : String) : String := ⟨id.data.take 1⟩

/-- Membership test `['狗','雞','猴','特','商'].includes(line)` used by
both the processor branch condition and the navigation module. -/
def isVerticalLine (line : String) : Bool :=
  line = "狗" || line = "雞" || line = "猴" || line = "特" || line = "商"

/-- Horizontal gap constant of `processStalls` (the three-way branch on
`num`; the first branch of the source tests `num > 24 && num <= 48`). -/
def horizGap (num : Int) : ℚ :=
  if num > 24 ∧ num ≤ 48 then 1.75
  else if num ≤ 12 ∨ num ≥ 61 then 0
  else 0.9

/-- Vertical-line remapping of the raw unit number to an effective
index and gap (`tempNum` / `gapSize` in the vertical branch of
`processStalls`). -/
def verticalRemap (line : String) (num : Int) : Int × ℚ :=
  if line = "狗" then
    if num ≥ 4 ∧ num < 16 then (3, 0.8)
    else if num ≥ 16 then (num - 12, 0.4)
    else (num, 0)
  else if line = "雞" then
    if num ≥ 4 ∧ num < 21 then (3, 0.8)
    else if num ≥ 21 then (num - 17, 0.4)
    else (num, 0)
  else if line = "猴" then
    if num ≥ 4 ∧ num < 23 then (3, 0.8)
    else if num ≥ 23 then (num - 19, 0.5)
    else (num, 0)
  else (num, 0)

/-- Coordinate calculation of `processStalls` (`stall-processor.ts`,
lines 72–168) for a stall on line `line` with template rect `t`, unit
number `num` and span `stallCnt`.  `Int.tmod` models the JavaScript
`%` operator (truncated remainder). -/
def computeCoords (line : String) (t : RectT) (num stallCnt : Int) : NumCoords :=
  if isVerticalLine line = false then
    let numInBlock : Int := if num > 36 then 72 - num else num
    let gapSize : ℚ := horizGap num
    if num > 36 then
      let top := t.top - t.height - 0.25
      let left := t.left - ((Int.tmod numInBlock 72 : ℚ) * t.width) - gapSize
      { top := top, left := roundTo2 left,
        width := t.width * (stallCnt : ℚ), height := t.height }
    else
      let left0 := t.left - ((numInBlock : ℚ) - 1) * t.width - gapSize
      let left := if stallCnt > 1 then left0 - ((stallCnt : ℚ) - 1) * t.width else left0
      { top := t.top, left := roundTo2 left,
        width := t.width * (stallCnt : ℚ), height := t.height }
  else
    let r := verticalRemap line num
    let top0 := t.top - t.height * ((r.1 : ℚ) - 1) - r.2
    let top := if stallCnt > 1 then top0 - ((stallCnt : ℚ) - 1) * t.height else top0
    { top := roundTo2 top, left := t.left,
      width := t.width, height := t.height * (stallCnt : ℚ) }

/-- Link parsing (`parsePromoLinks`): split on `;`, synthesize the
text, keep entries with a non-empty trimmed href (the synthesized text
is never empty). -/
def parsePromoLinks (promoUser : String) (linksStr : Option String) : List PromoLink :=
  match linksStr with
  | none => []
  | some s =>
    if s = "" then []
    else
      ((s.splitOn ";").enum.map (fun p =>
        { text := promoUser ++ "-宣傳車" ++ toString (p.1 + 1),
          href := p.2.trim : PromoLink })).filter
        (fun l => l.text ≠ "" && l.href ≠ "")

/-- Tag parsing (`parsePromoTags`): split on `;`, trim, drop empties. -/
def parsePromoTags (tagsStr : Option String) : List String :=
  match tagsStr with
  | none => []
  | some s =>
    if s = "" then []
    else (s.splitOn ";").map String.trim |>.filter (fun t => t ≠ "")

/-- Identifier of a raw row: `rawStall.id || rawStall.stallId`. -/
def rowKey (r : RawStall) : String := if r.id ≠ "" then r.id else r.stallId

/-- Span of a raw row: `parseInt(rawStall.stallCnt, 10) || 1` (both
`NaN` and `0` are falsy and default to 1). -/
def rowStallCnt (r : RawStall) : Int :=
  match r.stallCnt with
  | none => 1
  | some k => if k = 0 then 1 else k

/-- Promotion record built from a raw row (`promo` in `processStalls`). -/
def mkPromo (id : String) (r : RawStall) : PromoStall :=
  { stallId := id,
    promoUser := r.promoUser,
    promoAvatar := r.promoAvatar,
    promoHTML := r.promoHTML,
    promoLinks := parsePromoLinks r.promoUser r.promoLinks,
    promoTags := parsePromoTags r.promoTags }

/-- Base stall record built from the raw row that first resolves the
geometry (`stallEntry` creation in `processStalls`). -/
def mkShell (id : String) (r : RawStall) (t : LocateStall) (n : Int) : StallData :=
  let cnt := rowStallCnt r
  let c := computeCoords (lineOf id) t.coords n cnt
  { id := id,
    num := n,
    stallCnt := cnt,
    coords := c,
    numericCoords := c,
    stallTitle := if r.stallTitle ≠ "" then r.stallTitle else "N/A",
    stallImg := if r.stallImg ≠ "" then some r.stallImg else none,
    stallLink := if r.stallLink ≠ "" then some r.stallLink else none,
    promoData := [],
    promoTags := [] }

/-- Promotion aggregation step: when the row carries a non-empty
`promoUser`, append one promotion to the stall with this id. -/
def addPromo (id : String) (r : RawStall) (acc : List StallData) : List StallData :=
  if r.promoUser ≠ "" then
    acc.map (fun s =>
      if s.id = id then { s with promoData := s.promoData ++ [mkPromo id r] } else s)
  else acc

/-- One iteration of the `rawData.forEach` loop of `processStalls`;
the insertion-ordered `Map` is modelled as a list of stalls with
unique ids. -/
def processStep (acc : List StallData) (r : RawStall) : List StallData :=
  let id := rowKey r
  if id = "" then acc
  else if acc.any (fun s => s.id = id) then addPromo id r acc
  else
    match locateStallFind (lineOf id), r.num with
    | some t, some n => addPromo id r (acc ++ [mkShell id r t n])
    | _, _ => acc

/-- Tag union with first-seen order (`Set` insertion order). -/
def dedupFirst (l : List String) : List String :=
  l.foldl (fun acc t => if t ∈ acc then acc else acc ++ [t]) []

/-- Final tag aggregation pass of `processStalls`. -/
def collectTags (s : StallData) : StallData :=
  { s with promoTags := dedupFirst (s.promoData.flatMap (fun p => p.promoTags)) }

/-- The stall geometry resolver `processStalls` of `stall-processor.ts`. -/
def processStalls (rawData : List RawStall) : List StallData :=
  (rawData.foldl processStep []).map collectTags

/-! Navigation module (bundled in `src/vite.config.ts`). -/

/-- The definitive order of all rows on the map (`allRowIds`). -/
def allRowIds : List String :=
  ["A", "B", "C", "D", "E", "F", "G", "H", "I", "J", "K", "L", "M",
   "N", "O", "P", "Q", "R", "S", "T", "U", "V", "W", "X", "Y", "Z",
   "鼠", "牛", "虎", "兔", "龍", "蛇", "馬", "羊", "商", "特", "猴", "雞", "狗"]

/-- Substring test `s.includes(sub)`: `sub` occurs contiguously in
`s`, with the empty pattern always matching. -/
def strIncludes (s sub : String) : Bool := hasSubSeq sub.data s.data

/-- The search filter `getNavigableStalls`: keep the stalls whose id,
title or some promotion author contains the normalized search term;
a blank term keeps everything. -/
def getNavigableStalls (allStalls : List StallData) (searchTerm : String) :
    List StallData :=
  let ns := jsTrim (jsToLower searchTerm)
  if ns = "" then allStalls
  else allStalls.filter (fun stall =>
    strIncludes (jsToLower stall.id) ns ||
    strIncludes (jsToLower stall.stallTitle) ns ||
    stall.promoData.any (fun p => strIncludes (jsToLower p.promoUser) ns))

/-- Navigation directions. -/
inductive Dir where
  | up
  | down
  | left
  | right
deriving DecidableEq

/-- The boundary test `currentLine >= 'A' && currentLine <= 'Q'` of
the navigation module (JavaScript string comparison; `currentLine` is
always the empty string or a single code point). -/
def isLatinAQ (line : String) : Bool :=
  match line.data with
  | [c] => decide ('A' ≤ c) && decide (c ≤ 'Q')
  | _ => false

/-- The left/right while-loop of `getAdjacentStallId`: starting at
`target`, step by `dstep` while inside the 1..72 range, returning the
id of the first navigable stall of the current line carrying the
target number.  The loop is fuel-bounded; fuel 73 covers every run of
the source loop (at most 72 in-range numbers, one exit test). -/
def horizScan (stalls : List StallData) (line : String) :
    Int → Int → Nat → Option String
  | _, _, 0 => none
  | target, dstep, fuel + 1 =>
    if 1 ≤ target ∧ target ≤ 72 then
      match stalls.find? (fun s => strStartsWith s.id line && s.num = target) with
      | some s => some s.id
      | none => horizScan stalls line (target + dstep) dstep fuel
    else none

/-- First element of the stable descending sort by `num`
(`sort((a, b) => b.num - a.num)[0]`): the earliest element whose
number is maximal. -/
def firstMaxByNum : List StallData → Option StallData
  | [] => none
  | s :: rest =>
    match firstMaxByNum rest with
    | none => some s
    | some m => if m.num > s.num then some m else some s

/-- First element of the stable ascending sort by `num`
(`sort((a, b) => a.num - b.num)[0]`): the earliest element whose
number is minimal. -/
def firstMinByNum : List StallData → Option StallData
  | [] => none
  | s :: rest =>
    match firstMinByNum rest with
    | none => some s
    | some m => if m.num < s.num then some m else some s

/-- First element of the stable sort by distance to `cur`
(`sort((a, b) => abs(a.num - cur) - abs(b.num - cur))[0]`): the
earliest element with minimal absolute difference. -/
def firstMinByDist (cur : Int) : List StallData → Option StallData
  | [] => none
  | s :: rest =>
    match firstMinByDist cur rest with
    | none => some s
    | some m => if (m.num - cur).natAbs < (s.num - cur).natAbs then some m else some s

/-- Landing rule inside the first row that has navigable stalls
(`targetStall` selection in the up/down branch). -/
def pickInRow (rowStalls : List StallData) (isCurrentVertical : Bool)
    (direction : Dir) (currentNum : Int) : Option StallData :=
  if isCurrentVertical then
    if direction = Dir.down then firstMaxByNum rowStalls
    else firstMinByNum rowStalls
  else
    match rowStalls.find? (fun s => s.num = currentNum) with
    | some s => some s
    | none => firstMinByDist currentNum rowStalls

/-- The up/down while-loop of `getAdjacentStallId`: step the row index
by `step`, skip rows with no navigable stalls, and land in the first
row that has some (`targetStall?.id || null` maps an empty id to
none).  Fuel 40 covers every run of the source loop over the 39 rows. -/
def rowScan (stalls : List StallData) (isCurrentVertical : Bool)
    (direction : Dir) (currentNum : Int) :
    Int → Int → Nat → Option String
  | _, _, 0 => none
  | idx, step, fuel + 1 =>
    if 0 ≤ idx ∧ idx < (allRowIds.length : Int) then
      let rowId := allRowIds.getD idx.toNat ""
      let rowStalls := stalls.filter (fun s => strStartsWith s.id rowId)
      if rowStalls.isEmpty then
        rowScan stalls isCurrentVertical direction currentNum (idx + step) step fuel
      else
        (pickInRow rowStalls isCurrentVertical direction currentNum).bind
          (fun s => if s.id = "" then none else some s.id)
    else none

/-- Signed unit-number step of the left/right walk (`directionStep`
in the source: `step` is +1 for `left` (the `next` direction) and −1
for `right`, negated when `isReversed`, i.e. when the line is
horizontal and the current number is outside 1..36). -/
def horizDirStep (isCurrentVertical : Bool) (currentNum : Int)
    (direction : Dir) : Int :=
  let step : Int := if direction = Dir.left then 1 else -1
  if isCurrentVertical = false ∧ ¬(1 ≤ currentNum ∧ currentNum ≤ 36) then -step
  else step

/-- The navigation resolver `getAdjacentStallId` of the navigation
module (`resolveAdjacent` in the spec). -/
def getAdjacentStallId (currentStall : StallData)
    (navigableStalls : List StallData) (direction : Dir) : Option String :=
  if direction = Dir.right ∧ isLatinAQ (lineOf currentStall.id) = true ∧
      (currentStall.num = 1 ∨ currentStall.num = 72) then none
  else if direction = Dir.left ∨ direction = Dir.right then
    horizScan navigableStalls (lineOf currentStall.id)
      (currentStall.num +
        horizDirStep (isVerticalLine (lineOf currentStall.id))
          currentStall.num direction)
      (horizDirStep (isVerticalLine (lineOf currentStall.id))
        currentStall.num direction) 73
  else
    match allRowIds.findIdx? (fun r => r = lineOf currentStall.id) with
    | none => none
    | some i =>
      rowScan navigableStalls (isVerticalLine (lineOf currentStall.id))
        direction currentStall.num
        ((i : Int) + (if direction = Dir.up then 1 else -1))
        (if direction = Dir.up then 1 else -1) 40

/-! Specification-side definitions, written from the wording of the
claims, to be compared with the embedded code. -/

/-- Gap constant as worded by the spec: 0 for `n ≤ 12` or `n ≥ 61`,
1.75 for `24 < n ≤ 48`, and 0.9 otherwise. -/
def specGap (n : Int) : ℚ :=
  if n ≤ 12 ∨ n ≥ 61 then 0
  else if 24 < n ∧ n ≤ 48 then 1.75
  else 0.9

/-- Unit numbers visited by the left/right walk as worded by the spec:
one step at a time from `start` in direction `dstep`, until the 1..72
range is exhausted (fuel-bounded; 73 covers the whole range). -/
def targetNums (start dstep : Int) : Nat → List Int
  | 0 => []
  | fuel + 1 =>
    if 1 ≤ start ∧ start ≤ 72 then start :: targetNums (start + dstep) dstep fuel
    else []

/-- Left/right resolution as worded by the spec: walk the unit-number
sequence, skipping numbers with no matching stall in the current line;
the first match wins, and exhaustion yields none. -/
def specHorizWalk (stalls : List StallData) (line : String)
    (start dstep : Int) : Option String :=
  (targetNums start dstep 73).findSome? (fun tn =>
    (stalls.find? (fun s => strStartsWith s.id line && s.num = tn)).map
      (fun s => s.id))

/-- Number-step direction of the left/right walk, determined once per
call from the 1–36 / 37–72 mirroring (for horizontal lines). -/
def mirrorStep (num : Int) (dir : Dir) : Int :=
  if 1 ≤ num ∧ num ≤ 36 then (if dir = Dir.left then 1 else -1)
  else (if dir = Dir.left then -1 else 1)

/-- Row indices visited by the up/down walk as worded by the spec:
line-by-line from `start` in direction `step`, within the fixed row
order (fuel-bounded; 40 covers the 39 rows). -/
def rowIdxSeq (start step : Int) : Nat → List Int
  | 0 => []
  | fuel + 1 =>
    if 0 ≤ start ∧ start < (allRowIds.length : Int) then
      start :: rowIdxSeq (start + step) step fuel
    else []

/-- Stalls of the row at index `idx` of the fixed row order. -/
def rowMatches (stalls : List StallData) (idx : Int) : List StallData :=
  stalls.filter (fun s => strStartsWith s.id (allRowIds.getD idx.toNat ""))

/-- Index list scanned by one invocation of the up/down walk, starting
one step away from the current row index `i`. -/
def navScanIdxs (i : Nat) (dir : Dir) : List Int :=
  rowIdxSeq ((i : Int) + (if dir = Dir.up then 1 else -1))
    (if dir = Dir.up then 1 else -1) 40

/-- Latin-letter line test (single character in `A`..`Z`). -/
def isLatinLine (line : String) : Bool :=
  match line.data with
  | [c] => decide ('A' ≤ c) && decide (c ≤ 'Z')
  | _ => false

/-- Whether a raw row can resolve geometry: its line has a template
and its unit number parsed. -/
def resolvesB (r : RawStall) : Bool :=
  (locateStallFind (lineOf (rowKey r))).isSome && r.num.isSome

/-! Concrete example data used by counterexamples and witnesses. -/

/-- Stall record with the given id and number and neutral remaining
fields, for navigation examples. -/
def navStall (id : String) (n : Int) : StallData :=
  { id := id, num := n, stallCnt := 1,
    coords := { top := 0, left := 0, width := 0, height := 0 },
    numericCoords := { top := 0, left := 0, width := 0, height := 0 },
    stallTitle := "N/A", stallImg := none, stallLink := none,
    promoData := [], promoTags := [] }

/-- Raw row of the group `A01` whose unit number fails to parse. -/
def exRowBad : RawStall := { id := "A01", num := none, promoUser := "u" }

/-- Raw row of the group `A01` whose unit number parses. -/
def exRowGood : RawStall := { id := "A01", num := some 1, promoUser := "v" }

/-- Two-row input whose first `A01` row fails to parse its number. -/
def exRows : List RawStall := [exRowBad, exRowGood]

/-- Two-row input whose first `A01` row resolves. -/
def exRows2 : List RawStall := [exRowGood, exRowBad]

/-- The `A` line template rect. -/
def rectA : RectT := { top := 87.8, left := 91, width := 1.05, height := 1.4 }

/-- The `狗` line template rect. -/
def rectDog : RectT := { top := 18.2, left := 4.5, width := 1.1, height := 1.44 }

/-- Stall whose only search-relevant tag is `zebra` (id, title and
author do not contain it). -/
def tagStall : StallData :=
  { id := "A01", num := 1, stallCnt := 1,
    coords := { top := 0, left := 0, width := 0, height := 0 },
    numericCoords := { top := 0, left := 0, width := 0, height := 0 },
    stallTitle := "N/A", stallImg := none, stallLink := none,
    promoData := [{ stallId := "A01", promoUser := "u", promoAvatar := "",
                    promoHTML := "", promoLinks := [],
                    promoTags := ["zebra"] }],
    promoTags := ["zebra"] }

/-!
Lemmas and claim theorems.
-/

/-- The gap branch of the source equals the gap constant as worded by
the spec (the two condition orders agree because the ranges are
disjoint). -/
theorem horizGap_eq_specGap (n : Int) : horizGap n = specGap n := by
  unfold horizGap specGap
  split_ifs <;> first | rfl | omega

/-- Every anchor left coordinate of the template table already has at
most two decimal places, so rounding fixes it. -/
theorem roundTo2_locate_left :
    ∀ e ∈ locateStalls, roundTo2 e.coords.left = e.coords.left := by
  intro e he
  fin_cases he <;> norm_num [roundTo2]

/-- Claim C2: on a horizontal line with `unitSpan = 1` and unit number
`n` in 1..72, the rect is `top = anchorTop`,
`left = round2 (anchorLeft - (n-1)·w - gap n)` on the base tier, and
`top = anchorTop - anchorHeight - 0.25`,
`left = round2 (anchorLeft - ((72-n) mod 72)·w - gap n)` on the upper
tier; in particular `n = 1` gives the anchor left (for the anchors of
the template table) and `n = 37` gives the upper-tier top. -/
theorem c2_theorem (line : String) (t : RectT) (n : Int)
    (hline : isVerticalLine line = false) (h1 : 1 ≤ n) (h72 : n ≤ 72) :
    (n ≤ 36 → (computeCoords line t n 1).top = t.top ∧
      (computeCoords line t n 1).left =
        roundTo2 (t.left - ((n : ℚ) - 1) * t.width - specGap n)) ∧
    (36 < n → (computeCoords line t n 1).top = t.top - t.height - 0.25 ∧
      (computeCoords line t n 1).left =
        roundTo2 (t.left - ((((72 - n) % 72 : Int) : ℚ)) * t.width - specGap n)) ∧
    (n = 1 → ∀ e ∈ locateStalls, t = e.coords →
      (computeCoords line t n 1).left = t.left) ∧
    (n = 37 → (computeCoords line t n 1).top = t.top - t.height - 0.25) := by
  have hg := horizGap_eq_specGap n
  have hbase : n ≤ 36 → (computeCoords line t n 1).top = t.top ∧
      (computeCoords line t n 1).left =
        roundTo2 (t.left - ((n : ℚ) - 1) * t.width - specGap n) := by
    intro h36
    simp only [computeCoords, hline, eq_self_iff_true, if_true,
      if_neg (by omega : ¬ n > 36), if_neg (by norm_num : ¬ (1 : Int) > 1), hg]
    exact ⟨trivial, trivial⟩
  have hupper : 36 < n → (computeCoords line t n 1).top = t.top - t.height - 0.25 ∧
      (computeCoords line t n 1).left =
        roundTo2 (t.left - ((((72 - n) % 72 : Int) : ℚ)) * t.width - specGap n) := by
    intro h36
    have htm : Int.tmod (72 - n) 72 = (72 - n) % 72 :=
      Int.tmod_eq_emod (by omega) (by omega)
    simp only [computeCoords, hline, eq_self_iff_true, if_true,
      if_pos (by omega : n > 36), hg, htm]
    exact ⟨trivial, trivial⟩
  refine ⟨hbase, hupper, ?_, fun h37 => (hupper (by omega)).1⟩
  intro hn1 e he hte
  have hleft := (hbase (by omega)).2
  rw [hleft, hn1, hte]
  have h0 : e.coords.left - (((1 : Int) : ℚ) - 1) * e.coords.width - specGap 1 =
      e.coords.left := by
    norm_num [specGap]
  rw [h0]
  exact roundTo2_locate_left e he

/-- Witness for C2: on line `A` at unit 37, the top is one
anchor-height plus 0.25 above the anchor top. -/
theorem c2_witness :
    (computeCoords "A" rectA 37 1).top = rectA.top - rectA.height - 0.25 :=
  ( c2_theorem "A" rectA 37 (by decide) (by decide) (by decide)).2.2.2 rfl

/-- Counterexample to claim C3: on vertical line `狗` at unit 2, the
computed top is `anchorTop - anchorHeight` (the stack grows upward,
decreasing `top`), not `anchorTop + anchorHeight·(index-1) + gap` as
claimed. -/
theorem c3_counterexample :
    (computeCoords "狗" rectDog 2 1).top = 16.76 ∧
    (computeCoords "狗" rectDog 2 1).top ≠
      rectDog.top + rectDog.height * (((verticalRemap "狗" 2).1 : ℚ) - 1)
        + (verticalRemap "狗" 2).2 := by
  norm_num [computeCoords, rectDog, verticalRemap, roundTo2, isVerticalLine]

/-- Claim C3 as amended: on a vertical line the computed top edge is
`round2 (anchorTop - anchorHeight·(effectiveIndex - 1) - gap
- (span-1)·anchorHeight)` — the offset from the anchor is upward
(decreasing top) and a span extends the rectangle upward — while the
height is multiplied by the span and the left is the anchor left. -/
theorem c3_theorem (line : String) (t : RectT) (n cnt : Int)
    (hv : isVerticalLine line = true) (hcnt : 1 ≤ cnt) :
    (computeCoords line t n cnt).top =
      roundTo2 (t.top - t.height * (((verticalRemap line n).1 : ℚ) - 1)
        - (verticalRemap line n).2 - ((cnt : ℚ) - 1) * t.height) ∧
    (computeCoords line t n cnt).height = t.height * (cnt : ℚ) ∧
    (computeCoords line t n cnt).left = t.left := by
  have hnv : ¬ (isVerticalLine line = false) := by simp [hv]
  by_cases h1 : cnt > 1
  · simp only [computeCoords, if_neg hnv, if_pos h1]
    exact ⟨trivial, trivial, trivial⟩
  · have hc1 : cnt = 1 := by omega
    subst hc1
    simp only [computeCoords, if_neg hnv, if_neg h1]
    refine ⟨?_, by norm_num, trivial⟩
    congr 1
    push_cast
    ring

/-- Witness for C3: a span-2 stall at unit 5 of line `狗`
(`effectiveIndex` 3, gap 0.8) has top `13.08`. -/
theorem c3_witness : (computeCoords "狗" rectDog 5 2).top = 13.08 := by
  have h := ( c3_theorem "狗" rectDog 5 2 (by decide) (by decide)).1
  rw [h]
  norm_num [verticalRemap, rectDog, roundTo2]

/-- Counterexample to claim C4: on line `A` at upper-tier unit 40 with
span 2, the left edge equals the span-1 left edge — the upper-tier
branch never applies the span shift — although the width is doubled. -/
theorem c4_counterexample :
    (computeCoords "A" rectA 40 2).left = (computeCoords "A" rectA 40 1).left ∧
    (computeCoords "A" rectA 40 2).width = rectA.width * 2 ∧
    (computeCoords "A" rectA 40 2).left ≠
      (computeCoords "A" rectA 40 1).left - ((2 : ℚ) - 1) * rectA.width := by
  have hA : isVerticalLine "A" = false := rfl
  have htm : Int.tmod 32 72 = 32 := rfl
  norm_num [computeCoords, hA, htm, rectA, roundTo2, horizGap]

/-- Claim C4 as amended: for a horizontal stall with span greater
than 1 the width is multiplied by the span at every unit number, but
the extra `(span-1)` anchor-width left shift is applied only on the
base tier (`n ≤ 36`); on the upper tier (`n > 36`) the left edge is
the span-1 left edge. -/
theorem c4_theorem (line : String) (t : RectT) (n cnt : Int)
    (hline : isVerticalLine line = false) (hcnt : 1 < cnt)
    (h1 : 1 ≤ n) (h72 : n ≤ 72) :
    (computeCoords line t n cnt).width = t.width * (cnt : ℚ) ∧
    (n ≤ 36 → (computeCoords line t n cnt).left =
      roundTo2 (t.left - ((n : ℚ) - 1) * t.width - specGap n
        - ((cnt : ℚ) - 1) * t.width)) ∧
    (36 < n → (computeCoords line t n cnt).left =
      (computeCoords line t n 1).left) := by
  have hg := horizGap_eq_specGap n
  refine ⟨?_, ?_, ?_⟩
  · by_cases h36 : n > 36
    · simp only [computeCoords, hline, eq_self_iff_true, if_true, if_pos h36]
    · simp only [computeCoords, hline, eq_self_iff_true, if_true, if_neg h36]
  · intro h36
    simp only [computeCoords, hline, eq_self_iff_true, if_true,
      if_neg (by omega : ¬ n > 36), if_pos hcnt, hg]
  · intro h36
    simp only [computeCoords, hline, eq_self_iff_true, if_true,
      if_pos (by omega : n > 36)]

/-- Witness for C4: a span-2 stall at base-tier unit 20 of line `A`
has its left edge shifted one extra anchor-width, to `69.1`. -/
theorem c4_witness : (computeCoords "A" rectA 20 2).left = 69.1 := by
  have h := ( c4_theorem "A" rectA 20 2 (by decide) (by decide) (by decide)
    (by decide)).2.1 (by decide)
  rw [h]
  norm_num [specGap, rectA, roundTo2]

/-- Counterexample to claim C5: a stall whose only occurrence of the
search term is in a promotion tag is excluded by the filter — tags are
not consulted by `getNavigableStalls`. -/
theorem c5_counterexample :
    tagStall.promoTags = ["zebra"] ∧
    strIncludes (jsToLower "zebra") (jsTrim (jsToLower "zebra")) = true ∧
    getNavigableStalls [tagStall] "zebra" = [] := by decide

/-- Claim C5 as amended: a stall passes the filter exactly when the
trimmed lowercased term is empty or occurs as a substring of the
lowercased stall id, title, or some promotion author name — but not
its tags. -/
theorem c5_theorem (stalls : List StallData) (term : String) (st : StallData) :
    st ∈ getNavigableStalls stalls term ↔
      st ∈ stalls ∧ (jsTrim (jsToLower term) = "" ∨
        strIncludes (jsToLower st.id) (jsTrim (jsToLower term)) = true ∨
        strIncludes (jsToLower st.stallTitle) (jsTrim (jsToLower term)) = true ∨
        ∃ p ∈ st.promoData,
          strIncludes (jsToLower p.promoUser) (jsTrim (jsToLower term)) = true) := by
  unfold getNavigableStalls
  by_cases h : jsTrim (jsToLower term) = ""
  · simp [h]
  · simp only [if_neg h, List.mem_filter, Bool.or_eq_true, List.any_eq_true]
    constructor
    · rintro ⟨hm, hor⟩
      exact ⟨hm, Or.inr (by tauto)⟩
    · rintro ⟨hm, hor⟩
      rcases hor with hor | hor
      · exact absurd hor h
      · exact ⟨hm, by tauto⟩

/-- A Latin-letter line is not one of the five vertical lines. -/
theorem isLatin_ne_vertical (line : String) (h : isLatinLine line = true) :
    isVerticalLine line = false := by
  rcases line with ⟨data⟩
  match data with
  | [] => simp [isLatinLine] at h
  | c :: d :: t => simp [isLatinLine] at h
  | [c] =>
    simp only [isLatinLine, Bool.and_eq_true, decide_eq_true_eq] at h
    simp only [isVerticalLine, Bool.or_eq_false_iff, decide_eq_false_iff_not]
    refine ⟨⟨⟨⟨?_, ?_⟩, ?_⟩, ?_⟩, ?_⟩ <;> intro hEq <;>
      (first
        | (have hdata : c :: ([] : List Char) = '狗' :: [] := congrArg String.data hEq
           injection hdata with hc _; subst hc; exact absurd h.2 (by decide))
        | (have hdata : c :: ([] : List Char) = '雞' :: [] := congrArg String.data hEq
           injection hdata with hc _; subst hc; exact absurd h.2 (by decide))
        | (have hdata : c :: ([] : List Char) = '猴' :: [] := congrArg String.data hEq
           injection hdata with hc _; subst hc; exact absurd h.2 (by decide))
        | (have hdata : c :: ([] : List Char) = '特' :: [] := congrArg String.data hEq
           injection hdata with hc _; subst hc; exact absurd h.2 (by decide))
        | (have hdata : c :: ([] : List Char) = '商' :: [] := congrArg String.data hEq
           injection hdata with hc _; subst hc; exact absurd h.2 (by decide)))

/-- The left/right walk returns none as soon as its target number
leaves the 1..72 range. -/
theorem horizScan_out_of_range (stalls : List StallData) (line : String)
    (target dstep : Int) (fuel : Nat) (h : ¬ (1 ≤ target ∧ target ≤ 72)) :
    horizScan stalls line target dstep fuel = none := by
  cases fuel with
  | zero => rfl
  | succ f => unfold horizScan; rw [if_neg h]

/-- Claim C7: from unit 1 or 72 of any Latin-letter line, a `right`
request returns none whatever the filtered set contains. -/
theorem c7_theorem (stall : StallData) (stalls : List StallData)
    (hlatin : isLatinLine (lineOf stall.id) = true)
    (hnum : stall.num = 1 ∨ stall.num = 72) :
    getAdjacentStallId stall stalls Dir.right = none := by
  have hvert := isLatin_ne_vertical _ hlatin
  unfold getAdjacentStallId
  by_cases hQ : isLatinAQ (lineOf stall.id) = true
  · rw [if_pos ⟨rfl, hQ, hnum⟩]
  · rw [if_neg (fun hc => hQ hc.2.1), if_pos (Or.inr rfl)]
    rcases hnum with h1 | h72
    · rw [h1, show horizDirStep (isVerticalLine (lineOf stall.id)) 1 Dir.right = -1
        from by simp [horizDirStep]]
      exact horizScan_out_of_range _ _ _ _ _ (by norm_num)
    · rw [h72, hvert, show horizDirStep false 72 Dir.right = 1
        from by simp [horizDirStep]]
      exact horizScan_out_of_range _ _ _ _ _ (by norm_num)

/-- Witness for C7: `right` from `R72` returns none although `R50` is
in the filtered set (line `R` is outside the `A`..`Q` special case, so
the walk itself exhausts). -/
theorem c7_witness :
    getAdjacentStallId (navStall "R72" 72)
      [navStall "R72" 72, navStall "R50" 50] Dir.right = none :=
  c7_theorem _ _ (by decide) (Or.inr rfl)

/-- Claim C10: a stall whose line is absent from `allRowIds` gets none
from up/down navigation, although the demo line `範` does have a
template entry (and hence geometry). -/
theorem c10_theorem (stall : StallData) (stalls : List StallData) (dir : Dir)
    (hdir : dir = Dir.up ∨ dir = Dir.down)
    (hline : allRowIds.findIdx? (fun r => r = lineOf stall.id) = none) :
    getAdjacentStallId stall stalls dir = none ∧
    (locateStallFind (lineOf "範01")).isSome = true ∧
    allRowIds.findIdx? (fun r => r = lineOf "範01") = none := by
  refine ⟨?_, by decide, by decide⟩
  rcases hdir with rfl | rfl <;>
    simp [getAdjacentStallId, hline]

/-- Witness for C10: `up` from a stall on the demo line `範` returns
none even with other stalls present. -/
theorem c10_witness :
    getAdjacentStallId (navStall "範01" 1)
      [navStall "範01" 1, navStall "A01" 1] Dir.up = none :=
  (c10_theorem (navStall "範01" 1) [navStall "範01" 1, navStall "A01" 1]
    Dir.up (Or.inl rfl) (by decide)).1

/-- The fuel-bounded left/right loop equals the first-match walk over
the visited target numbers. -/
theorem horizScan_eq_walk (stalls : List StallData) (line : String) :
    ∀ (fuel : Nat) (target dstep : Int),
    horizScan stalls line target dstep fuel =
      (targetNums target dstep fuel).findSome? (fun tn =>
        (stalls.find? (fun s => strStartsWith s.id line && s.num = tn)).map
          (fun s => s.id)) := by
  intro fuel
  induction fuel with
  | zero => intro _ _; rfl
  | succ f ih =>
    intro target dstep
    unfold horizScan targetNums
    by_cases h : 1 ≤ target ∧ target ≤ 72
    · rw [if_pos h, if_pos h, List.findSome?_cons]
      cases hfind : stalls.find? (fun s => strStartsWith s.id line && s.num = target) with
      | none => simp only [hfind, Option.map_none']; exact ih _ _
      | some s => simp only [hfind, Option.map_some']
    · rw [if_neg h, if_neg h]; rfl

/-- A successful left/right walk returns a filtered stall of the same
line with a unit number inside 1..72. -/
theorem horizScan_some_mem (stalls : List StallData) (line : String) :
    ∀ (fuel : Nat) (target dstep : Int) (idStr : String),
    horizScan stalls line target dstep fuel = some idStr →
    ∃ s ∈ stalls, s.id = idStr ∧ strStartsWith s.id line = true ∧
      1 ≤ s.num ∧ s.num ≤ 72 := by
  intro fuel
  induction fuel with
  | zero => intro _ _ _ h; exact absurd h (by simp [horizScan])
  | succ f ih =>
    intro target dstep idStr h
    unfold horizScan at h
    by_cases hr : 1 ≤ target ∧ target ≤ 72
    · rw [if_pos hr] at h
      cases hfind : stalls.find? (fun s => strStartsWith s.id line && s.num = target) with
      | none => rw [hfind] at h; exact ih _ _ _ h
      | some s =>
        rw [hfind] at h
        have hmem := List.mem_of_find?_eq_some hfind
        have hpred := List.find?_some hfind
        simp only [Bool.and_eq_true, decide_eq_true_eq] at hpred
        refine ⟨s, hmem, by injection h, hpred.1, ?_, ?_⟩ <;>
          (rw [hpred.2]; omega)
    · rw [if_neg hr] at h; exact absurd h (by simp)

/-- Claim C6: for a horizontal stall, left/right navigation equals the
one-step walk in the mirrored number direction — skipping unit numbers
with no filtered stall of the same line, first match wins, none on
exhaustion of 1..72 and never a stall of another line — and in
particular the walk from `A01` toward increasing numbers skips the
missing `A02` and lands on `A03`. -/
theorem c6_theorem (stall : StallData) (stalls : List StallData) (dir : Dir)
    (hdir : dir = Dir.left ∨ dir = Dir.right)
    (hh : isVerticalLine (lineOf stall.id) = false) :
    (getAdjacentStallId stall stalls dir =
      specHorizWalk stalls (lineOf stall.id)
        (stall.num + mirrorStep stall.num dir) (mirrorStep stall.num dir)) ∧
    (∀ idStr, getAdjacentStallId stall stalls dir = some idStr →
      ∃ s ∈ stalls, s.id = idStr ∧ strStartsWith s.id (lineOf stall.id) = true ∧
        1 ≤ s.num ∧ s.num ≤ 72) ∧
    getAdjacentStallId (navStall "A01" 1) [navStall "A01" 1, navStall "A03" 3]
      Dir.left = some "A03" := by
  have hstep : horizDirStep (isVerticalLine (lineOf stall.id)) stall.num dir =
      mirrorStep stall.num dir := by
    rw [hh]
    unfold horizDirStep mirrorStep
    by_cases h36 : 1 ≤ stall.num ∧ stall.num ≤ 36
    · rw [if_neg (fun hc => hc.2 h36), if_pos h36]
    · rw [if_pos ⟨rfl, h36⟩, if_neg h36]
      rcases hdir with rfl | rfl <;> simp
  have hmain : getAdjacentStallId stall stalls dir =
      horizScan stalls (lineOf stall.id)
        (stall.num + mirrorStep stall.num dir) (mirrorStep stall.num dir) 73 := by
    unfold getAdjacentStallId
    by_cases hsp : dir = Dir.right ∧ isLatinAQ (lineOf stall.id) = true ∧
        (stall.num = 1 ∨ stall.num = 72)
    · rw [if_pos hsp]
      rcases hsp with ⟨rfl, _, hnum⟩
      rcases hnum with h1 | h72
      · rw [h1, show mirrorStep 1 Dir.right = -1 from by simp [mirrorStep]]
        exact (horizScan_out_of_range _ _ _ _ _ (by norm_num)).symm
      · rw [h72, show mirrorStep 72 Dir.right = 1 from by simp [mirrorStep]]
        exact (horizScan_out_of_range _ _ _ _ _ (by norm_num)).symm
    · rw [if_neg hsp, if_pos hdir, hstep]
  refine ⟨?_, ?_, ?_⟩
  · rw [hmain, horizScan_eq_walk]
    rfl
  · intro idStr hsome
    rw [hmain] at hsome
    exact horizScan_some_mem _ _ _ _ _ _ hsome
  · decide

/-- Witness for C6: from `B10` going left (increasing numbers on the
base tier) the walk skips the absent `B11` and reaches `B12`. -/
theorem c6_witness :
    getAdjacentStallId (navStall "B10" 10)
      [navStall "B10" 10, navStall "B12" 12] Dir.left = some "B12" := by
  have h := (c6_theorem (navStall "B10" 10)
    [navStall "B10" 10, navStall "B12" 12] Dir.left (Or.inl rfl) (by decide)).1
  rw [h]
  decide

/-- Head of the stable descending sort by `num` is an earliest element
with maximal number. -/
theorem firstMaxByNum_spec (l : List StallData) (hl : l ≠ []) :
    ∃ s, firstMaxByNum l = some s ∧ s ∈ l ∧ ∀ x ∈ l, x.num ≤ s.num := by
  induction l with
  | nil => exact absurd rfl hl
  | cons a rest ih =>
    by_cases hr : rest = []
    · subst hr
      exact ⟨a, by simp [firstMaxByNum], by simp, by simp⟩
    · obtain ⟨m, hm, hmem, hmax⟩ := ih hr
      by_cases hgt : m.num > a.num
      · refine ⟨m, ?_, List.mem_cons_of_mem _ hmem, ?_⟩
        · simp only [firstMaxByNum, hm, if_pos hgt]
        · intro x hx
          rcases List.mem_cons.mp hx with rfl | hx
          · omega
          · exact hmax x hx
      · refine ⟨a, ?_, List.mem_cons_self _ _, ?_⟩
        · simp only [firstMaxByNum, hm, if_neg hgt]
        · intro x hx
          rcases List.mem_cons.mp hx with rfl | hx
          · omega
          · exact le_trans (hmax x hx) (by omega)

/-- Head of the stable ascending sort by `num` is an earliest element
with minimal number. -/
theorem firstMinByNum_spec (l : List StallData) (hl : l ≠ []) :
    ∃ s, firstMinByNum l = some s ∧ s ∈ l ∧ ∀ x ∈ l, s.num ≤ x.num := by
  induction l with
  | nil => exact absurd rfl hl
  | cons a rest ih =>
    by_cases hr : rest = []
    · subst hr
      exact ⟨a, by simp [firstMinByNum], by simp, by simp⟩
    · obtain ⟨m, hm, hmem, hmin⟩ := ih hr
      by_cases hlt : m.num < a.num
      · refine ⟨m, ?_, List.mem_cons_of_mem _ hmem, ?_⟩
        · simp only [firstMinByNum, hm, if_pos hlt]
        · intro x hx
          rcases List.mem_cons.mp hx with rfl | hx
          · omega
          · exact hmin x hx
      · refine ⟨a, ?_, List.mem_cons_self _ _, ?_⟩
        · simp only [firstMinByNum, hm, if_neg hlt]
        · intro x hx
          rcases List.mem_cons.mp hx with rfl | hx
          · omega
          · exact le_trans (by omega) (hmin x hx)

/-- Head of the stable sort by absolute distance to `cur` is an
earliest element with minimal distance. -/
theorem firstMinByDist_spec (cur : Int) (l : List StallData) (hl : l ≠ []) :
    ∃ s, firstMinByDist cur l = some s ∧ s ∈ l ∧
      ∀ x ∈ l, (s.num - cur).natAbs ≤ (x.num - cur).natAbs := by
  induction l with
  | nil => exact absurd rfl hl
  | cons a rest ih =>
    by_cases hr : rest = []
    · subst hr
      exact ⟨a, by simp [firstMinByDist], by simp, by simp⟩
    · obtain ⟨m, hm, hmem, hmin⟩ := ih hr
      by_cases hlt : (m.num - cur).natAbs < (a.num - cur).natAbs
      · refine ⟨m, ?_, List.mem_cons_of_mem _ hmem, ?_⟩
        · simp only [firstMinByDist, hm, if_pos hlt]
        · intro x hx
          rcases List.mem_cons.mp hx with rfl | hx
          · omega
          · exact hmin x hx
      · refine ⟨a, ?_, List.mem_cons_self _ _, ?_⟩
        · simp only [firstMinByDist, hm, if_neg hlt]
        · intro x hx
          rcases List.mem_cons.mp hx with rfl | hx
          · omega
          · exact le_trans (by omega) (hmin x hx)

/-- Landing rule of the up/down walk: in a non-empty candidate row the
pick succeeds, stays in the row, and satisfies the claimed extremum /
exact-number / closest-number conditions. -/
theorem pickInRow_spec (row : List StallData) (isCV : Bool) (dir : Dir)
    (cur : Int) (hrow : row ≠ []) :
    ∃ s, pickInRow row isCV dir cur = some s ∧ s ∈ row ∧
      (isCV = true →
        (dir = Dir.down → ∀ x ∈ row, x.num ≤ s.num) ∧
        (dir ≠ Dir.down → ∀ x ∈ row, s.num ≤ x.num)) ∧
      (isCV = false →
        ((∃ x ∈ row, x.num = cur) → s.num = cur) ∧
        (∀ x ∈ row, (s.num - cur).natAbs ≤ (x.num - cur).natAbs)) := by
  cases isCV with
  | true =>
    by_cases hd : dir = Dir.down
    · obtain ⟨s, hs, hmem, hmax⟩ := firstMaxByNum_spec row hrow
      exact ⟨s, by simp [pickInRow, hd, hs], hmem,
        fun _ => ⟨fun _ => hmax, fun hnd => absurd hd hnd⟩,
        fun hcv => by simp at hcv⟩
    · obtain ⟨s, hs, hmem, hmin⟩ := firstMinByNum_spec row hrow
      exact ⟨s, by simp [pickInRow, hd, hs], hmem,
        fun _ => ⟨fun hd2 => absurd hd2 hd, fun _ => hmin⟩,
        fun hcv => by simp at hcv⟩
  | false =>
    cases hf : row.find? (fun s => s.num = cur) with
    | some s =>
      have hmem := List.mem_of_find?_eq_some hf
      have hpred := List.find?_some hf
      simp only [decide_eq_true_eq] at hpred
      refine ⟨s, by simp [pickInRow, hf], hmem,
        fun hcv => by simp at hcv,
        fun _ => ⟨fun _ => hpred, ?_⟩⟩
      intro x hx
      simp [hpred]
    | none =>
      obtain ⟨s, hs, hmem, hmin⟩ := firstMinByDist_spec cur row hrow
      refine ⟨s, by simp [pickInRow, hf, hs], hmem,
        fun hcv => by simp at hcv,
        fun _ => ⟨?_, hmin⟩⟩
      rintro ⟨x, hx, hxc⟩
      have := List.find?_eq_none.mp hf x hx
      simp [hxc] at this

/-- The scanned row indices stay inside the row order. -/
theorem rowIdxSeq_mem :
    ∀ (fuel : Nat) (start step j : Int), j ∈ rowIdxSeq start step fuel →
      0 ≤ j ∧ j < (allRowIds.length : Int) := by
  intro fuel
  induction fuel with
  | zero => intro _ _ _ h; simp [rowIdxSeq] at h
  | succ f ih =>
    intro start step j h
    unfold rowIdxSeq at h
    by_cases hr : 0 ≤ start ∧ start < (allRowIds.length : Int)
    · rw [if_pos hr] at h
      rcases List.mem_cons.mp h with rfl | h
      · exact hr
      · exact ih _ _ _ h
    · rw [if_neg hr] at h
      simp at h

/-- A stall matched inside a valid row has a non-empty id (every row
id of the order is non-empty, so the empty string starts with none of
them). -/
theorem rowMatches_id_ne_empty (stalls : List StallData) (j : Int)
    (h0 : 0 ≤ j) (h39 : j < (allRowIds.length : Int)) :
    ∀ s ∈ rowMatches stalls j, s.id ≠ "" := by
  intro s hs hid
  have hpred := (List.mem_filter.mp hs).2
  rw [hid] at hpred
  have hlt : j.toNat < 39 := by
    have hlen : (allRowIds.length : Int) = 39 := by rfl
    rw [hlen] at h39
    omega
  have hempty : ∀ k : Nat, k < 39 →
      strStartsWith "" (allRowIds.getD k "") = false := by decide
  rw [hempty j.toNat hlt] at hpred
  exact Bool.false_ne_true hpred

/-- The fuel-bounded up/down loop equals picking in the first visited
row that has filtered stalls. -/
theorem rowScan_char (stalls : List StallData) (isCV : Bool) (dir : Dir)
    (cur : Int) :
    ∀ (fuel : Nat) (idx step : Int),
    rowScan stalls isCV dir cur idx step fuel =
      ((rowIdxSeq idx step fuel).find?
          (fun j => !(rowMatches stalls j).isEmpty)).bind
        (fun j => (pickInRow (rowMatches stalls j) isCV dir cur).bind
          (fun s => if s.id = "" then none else some s.id)) := by
  intro fuel
  induction fuel with
  | zero => intro _ _; rfl
  | succ f ih =>
    intro idx step
    unfold rowScan rowIdxSeq
    by_cases hr : 0 ≤ idx ∧ idx < (allRowIds.length : Int)
    · rw [if_pos hr, if_pos hr, List.find?_cons]
      cases hE : (rowMatches stalls idx).isEmpty with
      | true =>
        simp only [rowMatches] at hE
        simp only [hE, Bool.not_true]
        exact ih _ _
      | false =>
        simp only [rowMatches] at hE
        simp only [hE, Bool.not_false]
        rw [if_neg (by simp : ¬ (false = true))]
        rfl
    · rw [if_neg hr, if_neg hr]
      rfl

/-- Claim C8: up/down navigation from a stall whose line sits at index
`i` of the fixed row order scans the indices beyond `i` in the chosen
direction, returns none when every scanned row is empty (in particular
`up` from the last line `狗`), and otherwise lands in the first row
with filtered stalls: on the unit with the origin number if present,
else one with minimal number distance — or the extreme unit if the
origin line is vertical (highest for `down`, lowest for `up`). -/
theorem c8_theorem (stall : StallData) (stalls : List StallData) (dir : Dir)
    (i : Nat) (hdir : dir = Dir.up ∨ dir = Dir.down)
    (hidx : allRowIds.findIdx? (fun r => r = lineOf stall.id) = some i) :
    ((navScanIdxs i dir).find? (fun j => !(rowMatches stalls j).isEmpty) = none →
      getAdjacentStallId stall stalls dir = none) ∧
    (∀ j, (navScanIdxs i dir).find?
        (fun j => !(rowMatches stalls j).isEmpty) = some j →
      ∃ s ∈ rowMatches stalls j, getAdjacentStallId stall stalls dir = some s.id ∧
        (isVerticalLine (lineOf stall.id) = true →
          (dir = Dir.down → ∀ x ∈ rowMatches stalls j, x.num ≤ s.num) ∧
          (dir = Dir.up → ∀ x ∈ rowMatches stalls j, s.num ≤ x.num)) ∧
        (isVerticalLine (lineOf stall.id) = false →
          ((∃ x ∈ rowMatches stalls j, x.num = stall.num) → s.num = stall.num) ∧
          (∀ x ∈ rowMatches stalls j,
            (s.num - stall.num).natAbs ≤ (x.num - stall.num).natAbs))) ∧
    (lineOf stall.id = "狗" → dir = Dir.up →
      getAdjacentStallId stall stalls dir = none) := by
  have hmain : getAdjacentStallId stall stalls dir =
      rowScan stalls (isVerticalLine (lineOf stall.id)) dir stall.num
        ((i : Int) + (if dir = Dir.up then 1 else -1))
        (if dir = Dir.up then 1 else -1) 40 := by
    rcases hdir with rfl | rfl <;>
      (unfold getAdjacentStallId
       rw [if_neg (fun hc => by simp at hc),
         if_neg (fun hc => by rcases hc with hc | hc <;> simp at hc), hidx])
  have ha : (navScanIdxs i dir).find?
      (fun j => !(rowMatches stalls j).isEmpty) = none →
      getAdjacentStallId stall stalls dir = none := by
    intro hnone
    rw [hmain, rowScan_char]
    rw [show rowIdxSeq ((i : Int) + (if dir = Dir.up then 1 else -1))
        (if dir = Dir.up then 1 else -1) 40 = navScanIdxs i dir from rfl, hnone]
    rfl
  refine ⟨ha, ?_, ?_⟩
  · intro j hj
    have hjmem := List.mem_of_find?_eq_some hj
    have hjpred := List.find?_some hj
    simp only [Bool.not_eq_true', Bool.not_eq_false'] at hjpred
    have hrow : rowMatches stalls j ≠ [] := by
      intro hnil
      rw [hnil] at hjpred
      simp at hjpred
    obtain ⟨s, hs, hmem, hvert, hhoriz⟩ :=
      pickInRow_spec (rowMatches stalls j) (isVerticalLine (lineOf stall.id))
        dir stall.num hrow
    have hbounds := rowIdxSeq_mem _ _ _ _ hjmem
    have hne := rowMatches_id_ne_empty stalls j hbounds.1 hbounds.2 s hmem
    refine ⟨s, hmem, ?_,
      fun hcv => ⟨(hvert hcv).1,
        fun hup => (hvert hcv).2 (by rw [hup]; decide)⟩, hhoriz⟩
    rw [hmain, rowScan_char]
    rw [show rowIdxSeq ((i : Int) + (if dir = Dir.up then 1 else -1))
        (if dir = Dir.up then 1 else -1) 40 = navScanIdxs i dir from rfl, hj]
    simp only [Option.some_bind, hs, if_neg hne]
  · intro hline hup
    subst hup
    apply ha
    have h38 : i = 38 := by
      have hfind : allRowIds.findIdx? (fun r => r = "狗") = some 38 := by decide
      rw [hline] at hidx
      rw [hfind] at hidx
      injection hidx with h
      omega
    subst h38
    rw [show navScanIdxs 38 Dir.up = [] from by decide]
    rfl

/-- Witness for C8: `up` from `A05` skips nothing and lands on `B03`,
the unit of line `B` whose number is closest to 5. -/
theorem c8_witness :
    getAdjacentStallId (navStall "A05" 5)
      [navStall "A05" 5, navStall "B03" 3, navStall "B09" 9] Dir.up =
      some "B03" := by
  have hb := (c8_theorem (navStall "A05" 5)
    [navStall "A05" 5, navStall "B03" 3, navStall "B09" 9] Dir.up 0
    (Or.inl rfl) (by decide)).2.1
  obtain ⟨s, hsmem, hres, _, hhoriz⟩ := hb 1 (by decide)
  have hrows : rowMatches [navStall "A05" 5, navStall "B03" 3, navStall "B09" 9]
      (1 : Int) = [navStall "B03" 3, navStall "B09" 9] := by decide
  rw [hrows] at hsmem
  rcases List.mem_cons.mp hsmem with rfl | hsmem
  · exact hres
  · rcases List.mem_cons.mp hsmem with rfl | hsmem
    · have hmin := (hhoriz (by decide)).2
      rw [hrows] at hmin
      have := hmin (navStall "B03" 3) (List.mem_cons_self _ _)
      simp [navStall] at this
    · simp at hsmem

/-- Filtering by id commutes with mapping an id-preserving function. -/
theorem filter_map_of_id (g : StallData → StallData) (hg : ∀ s, (g s).id = s.id)
    (id : String) (l : List StallData) :
    (l.map g).filter (fun s => s.id = id) =
      (l.filter (fun s => s.id = id)).map g := by
  induction l with
  | nil => rfl
  | cons a t ih =>
    simp only [List.map_cons, List.filter_cons, hg]
    by_cases ha : a.id = id
    · simp [ha, ih]
    · simp [ha, ih]

/-- Mapping a function that fixes every member is the identity. -/
theorem map_id_of_mem {α : Type} (l : List α) (f : α → α)
    (h : ∀ s ∈ l, f s = s) : l.map f = l := by
  induction l with
  | nil => rfl
  | cons a t ih =>
    rw [List.map_cons, h a (List.mem_cons_self _ _),
      ih (fun s hs => h s (List.mem_cons_of_mem _ hs))]

/-- Appending a promotion under a different key leaves the stalls of
this id untouched. -/
theorem filter_addPromo_ne (id key : String) (r : RawStall)
    (acc : List StallData) (h : key ≠ id) :
    (addPromo key r acc).filter (fun s => s.id = id) =
      acc.filter (fun s => s.id = id) := by
  unfold addPromo
  by_cases hp : r.promoUser ≠ ""
  · rw [if_pos hp,
      filter_map_of_id _ (fun s => by by_cases hs : s.id = key <;> simp [hs])]
    apply map_id_of_mem
    intro s hs
    have hsid : s.id = id := by simpa using (List.mem_filter.mp hs).2
    have hnk : ¬ s.id = key := fun hk => h (hk.symm.trans hsid)
    simp [hnk]
  · rw [if_neg hp]

/-- A singleton id-filter exhibits a member with that id. -/
theorem filter_eq_single_mem {id : String} {acc : List StallData} {s0 : StallData}
    (h : acc.filter (fun s => s.id = id) = [s0]) :
    s0 ∈ acc ∧ s0.id = id := by
  have : s0 ∈ acc.filter (fun s => s.id = id) := by
    rw [h]; exact List.mem_cons_self _ _
  have hm := List.mem_filter.mp this
  exact ⟨hm.1, by simpa using hm.2⟩

/-- Processing a row of a different key leaves the stalls of this id
untouched. -/
theorem step_other (id : String) (r : RawStall) (acc : List StallData)
    (h : rowKey r ≠ id) :
    (processStep acc r).filter (fun s => s.id = id) =
      acc.filter (fun s => s.id = id) := by
  unfold processStep
  by_cases h0 : rowKey r = ""
  · rw [if_pos h0]
  · rw [if_neg h0]
    by_cases hany : acc.any (fun s => s.id = rowKey r) = true
    · rw [if_pos hany]
      exact filter_addPromo_ne id (rowKey r) r acc h
    · rw [if_neg hany]
      cases hl : locateStallFind (lineOf (rowKey r)) with
      | none => rfl
      | some t =>
        cases hn : r.num with
        | none => rfl
        | some n =>
          rw [filter_addPromo_ne id (rowKey r) r _ h, List.filter_append]
          have hsid : (mkShell (rowKey r) r t n).id = rowKey r := rfl
          simp [hsid, h]

/-- Appending a promotion under this id extends the single stall's
promotion list by at most one entry. -/
theorem addPromo_single (id : String) (r : RawStall) (acc : List StallData)
    (s0 : StallData) (hflt : acc.filter (fun s => s.id = id) = [s0]) :
    (addPromo id r acc).filter (fun s => s.id = id) =
      [{ s0 with promoData := s0.promoData ++
          (if r.promoUser = "" then [] else [mkPromo id r]) }] := by
  have hs0 := filter_eq_single_mem hflt
  unfold addPromo
  by_cases hp : r.promoUser ≠ ""
  · rw [if_pos hp,
      filter_map_of_id _ (fun s => by by_cases hs : s.id = id <;> simp [hs]),
      hflt, List.map_cons, List.map_nil, if_pos hs0.2, if_neg hp]
  · rw [if_neg hp, hflt]
    have hpe : r.promoUser = "" := by by_contra hc; exact hp hc
    simp [hpe]

/-- Processing a row of this id while the stall already exists only
appends a promotion. -/
theorem step_present (id : String) (r : RawStall) (acc : List StallData)
    (s0 : StallData) (hkey : rowKey r = id) (hid : id ≠ "")
    (hflt : acc.filter (fun s => s.id = id) = [s0]) :
    (processStep acc r).filter (fun s => s.id = id) =
      [{ s0 with promoData := s0.promoData ++
          (if r.promoUser = "" then [] else [mkPromo id r]) }] := by
  have hs0 := filter_eq_single_mem hflt
  unfold processStep
  rw [hkey, if_neg hid,
    if_pos (List.any_eq_true.mpr ⟨s0, hs0.1, by simp [hs0.2]⟩)]
  exact addPromo_single id r acc s0 hflt

/-- A row of this id that cannot resolve is skipped wholesale while no
stall of the id exists. -/
theorem step_absent_skip (id : String) (r : RawStall) (acc : List StallData)
    (hkey : rowKey r = id) (hnores : resolvesB r = false)
    (hflt : acc.filter (fun s => s.id = id) = []) :
    (processStep acc r).filter (fun s => s.id = id) = [] := by
  have hany : ¬ acc.any (fun s => s.id = id) = true := by
    intro hc
    obtain ⟨s, hsmem, hsid⟩ := List.any_eq_true.mp hc
    have : s ∈ acc.filter (fun s => s.id = id) := List.mem_filter.mpr ⟨hsmem, hsid⟩
    rw [hflt] at this
    simp at this
  unfold processStep
  by_cases h0 : rowKey r = ""
  · rw [if_pos h0]; exact hflt
  · rw [if_neg h0, hkey, if_neg hany]
    unfold resolvesB at hnores
    rw [hkey] at hnores
    cases hl : locateStallFind (lineOf id) with
    | none => exact hflt
    | some t =>
      cases hn : r.num with
      | none => exact hflt
      | some n =>
        rw [hl, hn] at hnores
        simp at hnores

/-- A resolving row of this id creates the stall shell (with its own
promotion when the author is non-empty). -/
theorem step_absent_create (id : String) (r : RawStall) (acc : List StallData)
    (t : LocateStall) (n : Int) (hkey : rowKey r = id) (hid : id ≠ "")
    (hl : locateStallFind (lineOf id) = some t) (hn : r.num = some n)
    (hflt : acc.filter (fun s => s.id = id) = []) :
    (processStep acc r).filter (fun s => s.id = id) =
      [{ mkShell id r t n with promoData :=
          (if r.promoUser = "" then [] else [mkPromo id r]) }] := by
  have hany : ¬ acc.any (fun s => s.id = id) = true := by
    intro hc
    obtain ⟨s, hsmem, hsid⟩ := List.any_eq_true.mp hc
    have : s ∈ acc.filter (fun s => s.id = id) := List.mem_filter.mpr ⟨hsmem, hsid⟩
    rw [hflt] at this
    simp at this
  unfold processStep
  rw [hkey, if_neg hid, if_neg hany, hl, hn]
  have hone : (acc ++ [mkShell id r t n]).filter (fun s => s.id = id) =
      [mkShell id r t n] := by
    rw [List.filter_append, hflt]
    simp [show (mkShell id r t n).id = id from rfl]
  have happ := addPromo_single id r (acc ++ [mkShell id r t n]) (mkShell id r t n) hone
  rw [happ]
  rfl

/-- Once the stall exists, folding the remaining rows appends exactly
the promotions of the id's group rows with non-empty author. -/
theorem foldl_present (id : String) (hid : id ≠ "") :
    ∀ (rows : List RawStall) (acc : List StallData) (s0 : StallData),
    acc.filter (fun s => s.id = id) = [s0] →
    (rows.foldl processStep acc).filter (fun s => s.id = id) =
      [{ s0 with promoData := s0.promoData ++
          ((rows.filter (fun r => rowKey r = id)).filter
            (fun r => r.promoUser ≠ "")).map (mkPromo id) }] := by
  intro rows
  induction rows with
  | nil =>
    intro acc s0 hflt
    simp only [List.foldl_nil, List.filter_nil, List.map_nil, List.append_nil]
    exact hflt
  | cons r rest ih =>
    intro acc s0 hflt
    rw [List.foldl_cons]
    by_cases hkey : rowKey r = id
    · have hstep := step_present id r acc s0 hkey hid hflt
      have hrec := ih (processStep acc r)
        { s0 with promoData := s0.promoData ++
            (if r.promoUser = "" then [] else [mkPromo id r]) } hstep
      rw [hrec]
      by_cases hp : r.promoUser = ""
      · simp [hp, hkey, List.filter_cons]
      · simp [hp, hkey, List.filter_cons]
    · have hstep := step_other id r acc hkey
      rw [ih (processStep acc r) s0 (hstep.trans hflt)]
      simp [List.filter_cons, hkey]

/-- If no row of the id's group can resolve, no stall of the id is
ever created. -/
theorem foldl_absent (id : String) :
    ∀ (rows : List RawStall) (acc : List StallData),
    (∀ r ∈ rows, rowKey r = id → resolvesB r = false) →
    acc.filter (fun s => s.id = id) = [] →
    (rows.foldl processStep acc).filter (fun s => s.id = id) = [] := by
  intro rows
  induction rows with
  | nil => intro acc _ hflt; exact hflt
  | cons r rest ih =>
    intro acc h hflt
    rw [List.foldl_cons]
    by_cases hkey : rowKey r = id
    · have hstep := step_absent_skip id r acc hkey
        (h r (List.mem_cons_self _ _) hkey) hflt
      exact ih _ (fun x hx => h x (List.mem_cons_of_mem _ hx)) hstep
    · have hstep := step_other id r acc hkey
      exact ih _ (fun x hx => h x (List.mem_cons_of_mem _ hx)) (hstep.trans hflt)

/-- If the first row of the id's group resolves, the fold produces
exactly one stall of the id, carrying one promotion per group row with
non-empty author. -/
theorem foldl_create (id : String) (hid : id ≠ "") :
    ∀ (rows : List RawStall) (acc : List StallData) (r0 : RawStall),
    acc.filter (fun s => s.id = id) = [] →
    rows.find? (fun r => rowKey r = id) = some r0 →
    resolvesB r0 = true →
    ∃ s1, (rows.foldl processStep acc).filter (fun s => s.id = id) = [s1] ∧
      s1.promoData = ((rows.filter (fun r => rowKey r = id)).filter
        (fun r => r.promoUser ≠ "")).map (mkPromo id) := by
  intro rows
  induction rows with
  | nil => intro acc r0 _ hfind; simp at hfind
  | cons r rest ih =>
    intro acc r0 hflt hfind hres
    rw [List.foldl_cons]
    by_cases hkey : rowKey r = id
    · have hr0 : r0 = r := by
        rw [List.find?_cons,
          show decide (rowKey r = id) = true by simpa using hkey] at hfind
        injection hfind with h
        exact h.symm
      subst hr0
      obtain ⟨t, hl⟩ : ∃ t, locateStallFind (lineOf id) = some t := by
        unfold resolvesB at hres
        rw [hkey] at hres
        cases hl : locateStallFind (lineOf id) with
        | none => rw [hl] at hres; simp at hres
        | some t => exact ⟨t, rfl⟩
      obtain ⟨n, hn⟩ : ∃ n, r0.num = some n := by
        unfold resolvesB at hres
        cases hn : r0.num with
        | none => rw [hn] at hres; simp at hres
        | some n => exact ⟨n, rfl⟩
      have hstep := step_absent_create id r0 acc t n hkey hid hl hn hflt
      have hrec := foldl_present id hid rest (processStep acc r0) _ hstep
      refine ⟨_, hrec, ?_⟩
      by_cases hp : r0.promoUser = ""
      · simp [hp, hkey, List.filter_cons]
      · simp [hp, hkey, List.filter_cons]
    · have hfind2 : rest.find? (fun r => rowKey r = id) = some r0 := by
        rw [List.find?_cons,
          show decide (rowKey r = id) = false by simpa using hkey] at hfind
        exact hfind
      have hstep := step_other id r acc hkey
      obtain ⟨s1, hs1, hpd⟩ := ih (processStep acc r) r0 (hstep.trans hflt) hfind2 hres
      refine ⟨s1, hs1, ?_⟩
      rw [hpd]
      simp [List.filter_cons, hkey]

/-- One processing step keeps at most one stall per id. -/
theorem step_unique (id : String) (r : RawStall) (acc : List StallData)
    (h : (acc.filter (fun s => s.id = id)).length ≤ 1) :
    ((processStep acc r).filter (fun s => s.id = id)).length ≤ 1 := by
  by_cases hkey : rowKey r = id
  · by_cases hid : id = ""
    · have hstep : processStep acc r = acc := by
        unfold processStep
        rw [hkey, if_pos hid]
      rw [hstep]
      exact h
    · cases hflt : acc.filter (fun s => s.id = id) with
      | nil =>
        by_cases hres : resolvesB r = true
        · obtain ⟨t, hl⟩ : ∃ t, locateStallFind (lineOf id) = some t := by
            unfold resolvesB at hres
            rw [hkey] at hres
            cases hl : locateStallFind (lineOf id) with
            | none => rw [hl] at hres; simp at hres
            | some t => exact ⟨t, rfl⟩
          obtain ⟨n, hn⟩ : ∃ n, r.num = some n := by
            unfold resolvesB at hres
            cases hn : r.num with
            | none => rw [hn] at hres; simp at hres
            | some n => exact ⟨n, rfl⟩
          rw [step_absent_create id r acc t n hkey hid hl hn hflt]
          simp
        · rw [step_absent_skip id r acc hkey (by simpa using hres) hflt]
          simp
      | cons s0 rest =>
        have hr : rest = [] := by
          rw [hflt] at h
          simp only [List.length_cons] at h
          exact List.eq_nil_of_length_eq_zero (by omega)
        subst hr
        rw [step_present id r acc s0 hkey hid hflt]
        simp
  · rw [step_other id r acc hkey]
    exact h

/-- The whole fold keeps at most one stall per id. -/
theorem foldl_unique (id : String) :
    ∀ (rows : List RawStall) (acc : List StallData),
    (acc.filter (fun s => s.id = id)).length ≤ 1 →
    ((rows.foldl processStep acc).filter (fun s => s.id = id)).length ≤ 1 := by
  intro rows
  induction rows with
  | nil => intro acc h; exact h
  | cons r rest ih =>
    intro acc h
    rw [List.foldl_cons]
    exact ih _ (step_unique id r acc h)

/-- The tag pass keeps the id. -/
theorem collectTags_id (s : StallData) : (collectTags s).id = s.id := rfl

/-- The tag pass keeps the promotion list. -/
theorem collectTags_promoData (s : StallData) :
    (collectTags s).promoData = s.promoData := rfl

/-- The resolver's id-filtered output is the fold's, tag-passed. -/
theorem processStalls_filter (rows : List RawStall) (id : String) :
    (processStalls rows).filter (fun s => s.id = id) =
      ((rows.foldl processStep []).filter (fun s => s.id = id)).map collectTags := by
  unfold processStalls
  exact filter_map_of_id collectTags collectTags_id id _

/-- Counterexample to claim C1: on a two-row `A01` group whose first
row has an unparseable number, the resolver yields one stall whose
promotion list has length 1, while two rows of the group have a
non-empty author — the first row's promotion is lost. -/
theorem c1_counterexample :
    (∀ r ∈ exRows, rowKey r = "A01") ∧
    ((processStalls exRows).map (fun s => (s.id, s.promoData.length))) =
      [("A01", 1)] ∧
    (exRows.filter (fun r => r.promoUser ≠ "")).length = 2 := by
  refine ⟨by decide, ?_, by decide⟩
  decide

/-- Claim C1 as amended: the resolver keeps at most one stall per id
always; and whenever the first row of an id's group resolves (template
present and number parsed), it produces exactly one stall of that id
whose promotion count equals the group's count of rows with non-empty
author. -/
theorem c1_theorem (rows : List RawStall) (id : String) (r0 : RawStall)
    (hfind : rows.find? (fun r => rowKey r = id) = some r0)
    (hres : resolvesB r0 = true) :
    ((processStalls rows).filter (fun s => s.id = id)).length = 1 ∧
    (∀ s ∈ processStalls rows, s.id = id →
      s.promoData.length = ((rows.filter (fun r => rowKey r = id)).filter
        (fun r => r.promoUser ≠ "")).length) ∧
    (∀ id2 : String,
      ((processStalls rows).filter (fun s => s.id = id2)).length ≤ 1) := by
  have hid : id ≠ "" := by
    intro hc
    subst hc
    have hkey : rowKey r0 = "" := by simpa using List.find?_some hfind
    unfold resolvesB at hres
    rw [hkey] at hres
    rw [show locateStallFind (lineOf "") = none from by decide] at hres
    simp at hres
  obtain ⟨s1, hs1, hpd⟩ := foldl_create id hid rows [] r0 rfl hfind hres
  have hfl : (processStalls rows).filter (fun s => s.id = id) =
      [collectTags s1] := by
    rw [processStalls_filter, hs1]
    rfl
  refine ⟨by rw [hfl]; rfl, ?_, ?_⟩
  · intro s hs hsid
    have hmem : s ∈ (processStalls rows).filter (fun s => s.id = id) :=
      List.mem_filter.mpr ⟨hs, by simpa using hsid⟩
    rw [hfl] at hmem
    have hv : s = collectTags s1 := by simpa using hmem
    rw [hv, collectTags_promoData, hpd, List.length_map]
  · intro id2
    rw [processStalls_filter, List.length_map]
    exact foldl_unique id2 rows [] (by simp)

/-- Witness for C1: on the group whose first row resolves, the
resolver yields exactly one `A01` stall carrying both promotions. -/
theorem c1_witness :
    ((processStalls exRows2).filter (fun s => s.id = "A01")).length = 1 ∧
    ∀ s ∈ processStalls exRows2, s.id = "A01" → s.promoData.length = 2 := by
  obtain ⟨h1, h2, _⟩ := c1_theorem exRows2 "A01" exRowGood (by decide) (by decide)
  refine ⟨h1, fun s hs hid => ?_⟩
  rw [h2 s hs hid]
  decide

/-- Counterexample to claim C9: the two-row `A01` group whose first
row has an unparseable unit number is not dropped — the second row
creates the stall. -/
theorem c9_counterexample :
    exRows.find? (fun r => rowKey r = "A01") = some exRowBad ∧
    exRowBad.num = none ∧
    (processStalls exRows).map (fun s => s.id) = ["A01"] := by
  refine ⟨by decide, by decide, ?_⟩
  decide

/-- Claim C9 as amended: the resolver is a total function, and a stall
id is dropped from the output whenever its line has no template, or
every row of its group fails to parse a unit number (a non-resolving
row is only skipped individually; a later resolving row still creates
the stall). -/
theorem c9_theorem (rows : List RawStall) (id : String)
    (h : locateStallFind (lineOf id) = none ∨
      (∀ r ∈ rows, rowKey r = id → r.num = none)) :
    ∀ s ∈ processStalls rows, s.id ≠ id := by
  have hall : ∀ r ∈ rows, rowKey r = id → resolvesB r = false := by
    intro r hr hkey
    unfold resolvesB
    rw [hkey]
    rcases h with h | h
    · rw [h]
      rfl
    · rw [h r hr hkey]
      simp
  have hfl := foldl_absent id rows [] hall rfl
  intro s hs hsid
  have hmem : s ∈ (processStalls rows).filter (fun s => s.id = id) :=
    List.mem_filter.mpr ⟨hs, by simpa using hsid⟩
  rw [processStalls_filter, hfl] at hmem
  simp at hmem

/-- Witness for C9: with the single unparseable `A01` row, no output
stall carries the id `A01`. -/
theorem c9_witness :
    (processStalls [exRowBad]).all (fun s => s.id ≠ "A01") = true := by
  rw [List.all_eq_true]
  intro s hs
  simpa using c9_theorem [exRowBad] "A01" (Or.inr (by decide)) s hs

end NiceMap
